/-
Verification of the training orchestration script `classifier/train_on_azure.py`.

The script is a thin driver over a deep-learning framework: it parses
command-line flags, builds distributed data loaders, runs a two-phase
(frozen-feature warm-up, then full fine-tune) epoch loop, evaluates on a
sharded validation set with all-reduced scalar metrics, and checkpoints the
model after every epoch.  Below we embed its original control logic —
argument defaults, the two Python `range` epoch loops, the one-way unfreeze
of the feature extractor, the checkpoint naming, the evaluation-loop
accumulation and metric averaging, and the device-placement steps — as Lean
definitions, and prove the specified properties about them.
-/
import Mathlib

/-! ## Python `range` and the epoch loops -/

/-- Python `range(a, b)`: the integers `a, a+1, …, b-1` (empty when `b ≤ a`). -/
def pyRange (a b : ℤ) : List ℤ :=
  (List.range (b - a).toNat).map (fun i => a + (i : ℤ))

/-- Constant `N_FINETUNE_EPOCHS = 2` (line 82). -/
def N_FINETUNE_EPOCHS : ℤ := 2

/-- Checkpoint name prefix `CKPT = 'xception_train'` (line 83). -/
def CKPT : String := "xception_train"

/-- Epochs of the warm-up loop: `for epoch in range(1, N_FINETUNE_EPOCHS)` (line 166). -/
def warmupEpochs : List ℤ := pyRange 1 N_FINETUNE_EPOCHS

/-- Epochs of the full fine-tune loop:
`for epoch in range(N_FINETUNE_EPOCHS, args.epochs + 1)` (line 174). -/
def finetuneEpochs (epochs : ℤ) : List ℤ := pyRange N_FINETUNE_EPOCHS (epochs + 1)

/-- All epoch numbers the program visits, in order. -/
def visitedEpochs (epochs : ℤ) : List ℤ := warmupEpochs ++ finetuneEpochs epochs

/-! ## Command-line arguments (lines 22–44) -/

/-- The parsed argument record.  Field names follow the `argparse` dest names. -/
structure Args where
  data_folder : Option String
  output_dir : String
  batch_size : ℤ
  test_batch_size : ℤ
  epochs : ℤ
  lr : ℚ
  momentum : ℚ
  no_cuda : Bool
  seed : ℤ
  log_interval : ℤ
  fp16_allreduce : Bool
  deriving DecidableEq, Repr

/-- The values `argparse` produces when no flags are supplied: each declared
default, and `None` for `--data-folder`, which has no `default=` (line 23). -/
def defaultArgs : Args :=
  { data_folder := none
    output_dir := "./outputs"
    batch_size := 64
    test_batch_size := 1000
    epochs := 10
    lr := 1/100
    momentum := 1/2
    no_cuda := false
    seed := 42
    log_interval := 10
    fp16_allreduce := false }

/-- One flag supplied on the command line. -/
inductive CliArg where
  | data_folder (v : String)
  | output_dir (v : String)
  | batch_size (v : ℤ)
  | test_batch_size (v : ℤ)
  | epochs (v : ℤ)
  | lr (v : ℚ)
  | momentum (v : ℚ)
  | no_cuda
  | seed (v : ℤ)
  | log_interval (v : ℤ)
  | fp16_allreduce
  deriving DecidableEq, Repr

/-- Record one supplied flag into the argument record. -/
def applyFlag (a : Args) : CliArg → Args
  | CliArg.data_folder v => { a with data_folder := some v }
  | CliArg.output_dir v => { a with output_dir := v }
  | CliArg.batch_size v => { a with batch_size := v }
  | CliArg.test_batch_size v => { a with test_batch_size := v }
  | CliArg.epochs v => { a with epochs := v }
  | CliArg.lr v => { a with lr := v }
  | CliArg.momentum v => { a with momentum := v }
  | CliArg.no_cuda => { a with no_cuda := true }
  | CliArg.seed v => { a with seed := v }
  | CliArg.log_interval v => { a with log_interval := v }
  | CliArg.fp16_allreduce => { a with fp16_allreduce := true }

/-- Parsing, `parser.parse_args()`: every flag is optional, so parsing always succeeds;
absent flags keep their defaults (or `None`). -/
def parseArgs (supplied : List CliArg) : Args :=
  supplied.foldl applyFlag defaultArgs

/-- Simplified `os.path.join(a, b)` for the relative second components used here. -/
def osPathJoin (a b : String) : String :=
  if a = "" then b else if a.endsWith "/" then a ++ b else a ++ "/" ++ b

/-- Line 60, `data_folder = os.path.join(args.data_folder, 'data_wf')`:
`os.path.join` raises `TypeError` when its first argument is `None`. -/
def dataFolderPath (a : Args) : Except String String :=
  match a.data_folder with
  | some s => Except.ok (osPathJoin s "data_wf")
  | none => Except.error "TypeError"

/-! ## Device placement during setup (lines 47–109) -/

/-- Line 47: `args.cuda = not args.no_cuda and torch.cuda.is_available()`. -/
def cudaEnabled (noCuda cudaAvailable : Bool) : Bool :=
  !noCuda && cudaAvailable

/-- Observable setup-phase actions between argument parsing and the epoch loops. -/
inductive SetupStep where
  | cudaSetDevice
  | moveModelCuda
  | broadcastParams
  | buildOptimizer
  | moveWeightsCuda
  | buildCriterion
  deriving DecidableEq, Repr

/-- The setup actions in program order, as a function of `args.cuda`:
the two guarded `.cuda()` calls on lines 54 and 89 run only when CUDA is
enabled, while the `class_weights` move on line 107 is unguarded. -/
def setupTrace (cuda : Bool) : List SetupStep :=
  (if cuda then [SetupStep.cudaSetDevice] else [])
    ++ (if cuda then [SetupStep.moveModelCuda] else [])
    ++ [SetupStep.broadcastParams, SetupStep.buildOptimizer,
        SetupStep.moveWeightsCuda, SetupStep.buildCriterion]

/-- The SGD hyperparameters handed to `optim.SGD` (lines 95–96). -/
structure SGDConfig where
  lr : ℚ
  momentum : ℚ
  deriving DecidableEq, Repr

/-- Lines 95–96, `optim.SGD(model.parameters(), lr=args.lr * hvd.size(), momentum=args.momentum)`:
`worldSize` is `hvd.size()`, the number of distributed workers. -/
def buildSGD (a : Args) (worldSize : ℕ) : SGDConfig :=
  { lr := a.lr * (worldSize : ℚ), momentum := a.momentum }

/-! ## The model's trainability state -/

/-- One model parameter, tracked only through its `requires_grad` flag. -/
structure Param where
  requiresGrad : Bool
  deriving DecidableEq, Repr

/-- The Xception network: a feature extractor, a classifier head, and the
function the forward pass computes (class scores for an input, abstract). -/
structure Xception where
  features : List Param
  classifier : List Param
  forward : ℕ → List ℝ

/-- Modelled from the spec: `Xception()` plus `model.load_scratch(PATH)`
(lines 84–85) live in the absent `xception.py`; per the spec, before the
warm-up phase ends "only the classifier head's parameters are trainable (the
rest are loaded from pretrained weights and frozen)".  `nf` and `nc` are the
feature-extractor and classifier parameter counts. -/
def loadScratch (nf nc : ℕ) (fwd : ℕ → List ℝ) : Xception :=
  { features := List.replicate nf { requiresGrad := false }
    classifier := List.replicate nc { requiresGrad := true }
    forward := fwd }

/-- Lines 171–172: `for param in model.features.parameters(): param.requires_grad = True`. -/
def unfreezeFeatures (m : Xception) : Xception :=
  { m with features := m.features.map (fun _ => { requiresGrad := true }) }

/-- The full parameter mapping `model.state_dict()`: features and classifier. -/
def stateDict (m : Xception) : List Param :=
  m.features ++ m.classifier

/-- Every parameter of the model is trainable (the full fine-tune state). -/
def fullyTrainable (m : Xception) : Bool :=
  m.features.all (fun p => p.requiresGrad) && m.classifier.all (fun p => p.requiresGrad)

/-- Only the classifier head is trainable (the frozen-feature state). -/
def onlyHeadTrainable (m : Xception) : Bool :=
  m.features.all (fun p => !p.requiresGrad) && m.classifier.all (fun p => p.requiresGrad)

/-! ## The top-level program trace (lines 166–177) -/

/-- A wall-clock reading, as used by `time()` (lines 77–80). -/
structure Wallclock where
  date : String
  hour : ℕ
  minute : ℕ
  deriving DecidableEq, Repr

/-- Line 79, `time()`: `f'{now.date()}_{now.hour}-{now.minute}'`. -/
def time (now : Wallclock) : String :=
  now.date ++ "_" ++ toString now.hour ++ "-" ++ toString now.minute

/-- Observable top-level events of the epoch loops. -/
inductive Ev where
  | trainEpoch (e : ℤ)
  | evalRun
  | save (path : String) (dict : List Param)
  | unfreeze
  deriving DecidableEq

/-- The body shared by both epoch loops (lines 167–169 and 175–177):
train, evaluate, then save `model.state_dict()` to
`os.path.join(args.output_dir, f'{CKPT}_{time()}.pth')`.  `clock idx` is the
wall-clock reading at the `idx`-th checkpoint write. -/
def epochBody (dir : String) (clock : ℕ → Wallclock) (m : Xception) (idx : ℕ) (e : ℤ) :
    List Ev :=
  [Ev.trainEpoch e, Ev.evalRun,
   Ev.save (osPathJoin dir (CKPT ++ "_" ++ time (clock idx) ++ ".pth")) (stateDict m)]

/-- One of the two epoch loops, run over the epoch list `L`, numbering its
checkpoint writes from `idx`. -/
def epochLoop (dir : String) (clock : ℕ → Wallclock) (m : Xception) :
    ℕ → List ℤ → List Ev
  | _, [] => []
  | idx, e :: rest => epochBody dir clock m idx e ++ epochLoop dir clock m (idx + 1) rest

/-- The whole post-setup program: the warm-up loop on the frozen model, the
unconditional unfreeze (lines 171–172), then the fine-tune loop. -/
def programTrace (dir : String) (clock : ℕ → Wallclock) (epochs : ℤ) (m0 : Xception) :
    List Ev :=
  epochLoop dir clock m0 0 warmupEpochs
    ++ [Ev.unfreeze]
    ++ epochLoop dir clock (unfreezeFeatures m0) warmupEpochs.length (finetuneEpochs epochs)

/-- How one event transforms the model's trainability state: only the
unfreeze touches `requires_grad` flags. -/
def stepModel (m : Xception) : Ev → Xception
  | Ev.unfreeze => unfreezeFeatures m
  | _ => m

/-- The sequence of model states along an event list, starting state included. -/
def statesAfter (m : Xception) : List Ev → List Xception
  | [] => [m]
  | e :: rest => m :: statesAfter (stepModel m e) rest

/-- The epoch numbers trained, read off a trace. -/
def epochsVisited (t : List Ev) : List ℤ :=
  t.filterMap (fun e => match e with
    | Ev.trainEpoch x => some x
    | _ => none)

/-- The checkpoint writes (path and serialized mapping), read off a trace. -/
def savesOf (t : List Ev) : List (String × List Param) :=
  t.filterMap (fun e => match e with
    | Ev.save p d => some (p, d)
    | _ => none)

/-- Number of `false → true` steps in a Boolean sequence. -/
def rises : List Bool → ℕ
  | a :: b :: t => (if a = false ∧ b = true then 1 else 0) + rises (b :: t)
  | _ => 0

/-- Number of `true → false` steps in a Boolean sequence. -/
def falls : List Bool → ℕ
  | a :: b :: t => (if a = true ∧ b = false then 1 else 0) + falls (b :: t)
  | _ => 0

/-! ## The evaluation loop (lines 132–163)

Scores and losses are modelled over `ℝ` (the script computes in floating
point).  A batch is the list of `(input, target)` pairs the test loader
yields; a worker's shard is its list of batches. -/

/-- One mini-batch of `(input, target)` pairs. -/
abbrev Batch := List (ℕ × ℕ)

noncomputable section

/-- Log-sum-exp of a score vector, the normalizer of `softmax`. -/
def lse (o : List ℝ) : ℝ :=
  Real.log ((o.map Real.exp).sum)

/-- Per-example `nn.CrossEntropyLoss(weight=w)` on one example with score vector `o` and
target class `t` (the external framework's documented semantics):
`w[t] * (logsumexp(o) - o[t])`. -/
def ceLoss (w : List ℝ) (o : List ℝ) (t : ℕ) : ℝ :=
  w.getD t 0 * (lse o - o.getD t 0)

/-- Line 149, `output.data.max(1, keepdim=True)[1]` on one score vector: the index of
its (first) maximal entry. -/
def argmaxIdx : List ℝ → ℕ
  | [] => 0
  | [_] => 0
  | x :: y :: t =>
    let j := argmaxIdx (y :: t)
    if x < (y :: t).getD j 0 then j + 1 else 0

/-- Line 147, one step of `test_loss += val_criterion(output, target).item()`:
`val_criterion` has `size_average=False`, so a batch contributes the *sum* of
its examples' weighted losses. -/
def batchLossSum (m : Xception) (w : List ℝ) (b : Batch) : ℝ :=
  (b.map (fun p => ceLoss w (m.forward p.1) p.2)).sum

/-- Line 150, one step of
`test_accuracy += pred.eq(target.data.view_as(pred)).cpu().float().sum()`:
the number of examples in the batch whose predicted class equals the target. -/
def batchCorrect (m : Xception) (b : Batch) : ℝ :=
  (b.map (fun p => if argmaxIdx (m.forward p.1) = p.2 then (1 : ℝ) else 0)).sum

/-- Shard size `len(test_sampler)`: the number of examples the worker's shard yields. -/
def shardSize (batches : List Batch) : ℕ :=
  (batches.map List.length).sum

/-- The accumulation loop of `test()` (lines 140–150): starting from
`test_loss = 0.` and `test_accuracy = 0.`, add each batch's summed loss and
summed correct count. -/
def evalPass (m : Xception) (w : List ℝ) (batches : List Batch) : ℝ × ℝ :=
  batches.foldl
    (fun acc b => (acc.1 + batchLossSum m w b, acc.2 + batchCorrect m b)) (0, 0)

/-- Lines 152–153: divide both accumulators by `len(test_sampler)` to get the
worker's local mean loss and accuracy. -/
def localStats (m : Xception) (w : List ℝ) (batches : List Batch) : ℝ × ℝ :=
  ((evalPass m w batches).1 / (shardSize batches : ℝ),
   (evalPass m w batches).2 / (shardSize batches : ℝ))

/-- Horovod `hvd.allreduce(tensor, name=name)` with the default average reduction:
every worker contributes one scalar and receives their arithmetic mean; the
name only keys the matching of the collective call across workers. -/
def hvd_allreduce (worldVals : List ℝ) (name : String) : ℝ :=
  worldVals.sum / (worldVals.length : ℝ)

/-- Lines 132–135, `metric_average(val, name)`: wrap the scalar in a tensor,
all-reduce it by name, and return the averaged scalar.  `worldVals` lists the
value each worker passes in. -/
def metric_average (worldVals : List ℝ) (name : String) : ℝ :=
  hvd_allreduce worldVals name

/-- Function `test()` (lines 138–156) as seen across the whole worker group:
`shards` holds each worker's batches; every worker runs the local pass on its
shard, the two local means are all-reduced independently (lines 155–156), and
the model is returned unchanged — `test()` never writes a parameter. -/
def test (m : Xception) (w : List ℝ) (shards : List (List Batch)) :
    (ℝ × ℝ) × Xception :=
  ((metric_average (shards.map (fun sh => (localStats m w sh).1)) "avg_loss",
    metric_average (shards.map (fun sh => (localStats m w sh).2)) "avg_accuracy"),
   m)

/-- Observable reporting actions at the end of `test()` (lines 158–163). -/
inductive RunEvent where
  | log (name : String) (value : ℝ)
  | printSummary (loss acc : ℝ)

/-- What one worker of the given rank emits after evaluation: both metric
logs unconditionally, the printed summary only on rank 0 (lines 158–163). -/
def testEffects (rank : ℕ) (m : Xception) (w : List ℝ) (shards : List (List Batch)) :
    List RunEvent :=
  [RunEvent.log "val_loss" ((test m w shards).1).1,
   RunEvent.log "val_acc" ((test m w shards).1).2]
    ++ (if rank = 0
        then [RunEvent.printSummary ((test m w shards).1).1 ((test m w shards).1).2]
        else [])

/-- The tracker-logging actions among a worker's reporting actions. -/
def logEvents (l : List RunEvent) : List RunEvent :=
  l.filter (fun e => match e with
    | RunEvent.log _ _ => true
    | _ => false)

/-- Whether a console summary is printed. -/
def printsSummary (l : List RunEvent) : Bool :=
  l.any (fun e => match e with
    | RunEvent.printSummary _ _ => true
    | _ => false)

end

/-! ## Concrete instances used in closed statements -/

/-- A fixed wall clock for closed runs. -/
def clock0 : ℕ → Wallclock := fun _ => { date := "2020-01-01", hour := 12, minute := 30 }

/-- A trivial forward pass for closed runs on the trainability model. -/
def fwd0 : ℕ → List ℝ := fun _ => []

/-- A two-class toy network for closed evaluation runs. -/
noncomputable def toyModel : Xception :=
  { features := [], classifier := [], forward := fun _ => [0, 1] }

/-- A toy class-weight vector. -/
noncomputable def toyWeights : List ℝ := [1, 1]

/-- One worker holding one single-example batch. -/
def toyShards : List (List Batch) := [[[(0, 1)]]]

/-! ## Helper lemmas -/

theorem epochsVisited_append (t₁ t₂ : List Ev) :
    epochsVisited (t₁ ++ t₂) = epochsVisited t₁ ++ epochsVisited t₂ :=
  List.filterMap_append t₁ t₂ _

theorem savesOf_append (t₁ t₂ : List Ev) :
    savesOf (t₁ ++ t₂) = savesOf t₁ ++ savesOf t₂ :=
  List.filterMap_append t₁ t₂ _

theorem epochsVisited_epochLoop (dir : String) (clock : ℕ → Wallclock) (m : Xception) :
    ∀ (L : List ℤ) (idx : ℕ), epochsVisited (epochLoop dir clock m idx L) = L := by
  intro L
  induction L with
  | nil => intro idx; rfl
  | cons e rest ih =>
    intro idx
    simp only [epochLoop, epochsVisited_append, ih]
    rfl

theorem epochsVisited_program (dir : String) (clock : ℕ → Wallclock) (epochs : ℤ)
    (m0 : Xception) :
    epochsVisited (programTrace dir clock epochs m0) = visitedEpochs epochs := by
  simp only [programTrace, epochsVisited_append, epochsVisited_epochLoop, visitedEpochs]
  simp [epochsVisited]

theorem savesOf_epochLoop_length (dir : String) (clock : ℕ → Wallclock) (m : Xception) :
    ∀ (L : List ℤ) (idx : ℕ), (savesOf (epochLoop dir clock m idx L)).length = L.length := by
  intro L
  induction L with
  | nil => intro idx; rfl
  | cons e rest ih =>
    intro idx
    simp only [epochLoop, savesOf_append, List.length_append, ih]
    have h1 : (savesOf (epochBody dir clock m idx e)).length = 1 := rfl
    rw [h1, List.length_cons]
    omega

theorem savesOf_epochLoop_mem (dir : String) (clock : ℕ → Wallclock) (m : Xception) :
    ∀ (L : List ℤ) (idx : ℕ), ∀ s ∈ savesOf (epochLoop dir clock m idx L),
      (∃ i, s.1 = osPathJoin dir (CKPT ++ "_" ++ time (clock i) ++ ".pth"))
        ∧ s.2 = stateDict m := by
  intro L
  induction L with
  | nil => intro idx s hs; simp [epochLoop, savesOf] at hs
  | cons e rest ih =>
    intro idx s hs
    simp only [epochLoop, savesOf_append, List.mem_append] at hs
    rcases hs with hs | hs
    · simp only [epochBody, savesOf, List.filterMap, List.mem_singleton] at hs
      subst hs
      exact ⟨⟨idx, rfl⟩, rfl⟩
    · exact ih (idx + 1) s hs

theorem stepModel_epochLoop (dir : String) (clock : ℕ → Wallclock) (m : Xception) :
    ∀ (L : List ℤ) (idx : ℕ), ∀ e ∈ epochLoop dir clock m idx L, ∀ x, stepModel x e = x := by
  intro L
  induction L with
  | nil => intro idx e he; simp [epochLoop] at he
  | cons a rest ih =>
    intro idx e he x
    simp only [epochLoop] at he
    rcases List.mem_append.mp he with h | h
    · simp only [epochBody, List.mem_cons, List.not_mem_nil, or_false] at h
      rcases h with h | h | h <;> subst h <;> rfl
    · exact ih (idx + 1) e h x

theorem statesAfter_const (l : List Ev) :
    ∀ m, (∀ e ∈ l, ∀ x, stepModel x e = x) →
      statesAfter m l = m :: List.replicate l.length m := by
  induction l with
  | nil => intro m _; rfl
  | cons e rest ih =>
    intro m h
    have he : stepModel m e = m := h e (List.mem_cons_self e rest) m
    simp only [statesAfter, he, List.length_cons, List.replicate_succ]
    exact congrArg _ (ih m (fun x hx y => h x (List.mem_cons_of_mem e hx) y))

theorem statesAfter_noop_append (l₁ l₂ : List Ev) :
    ∀ m, (∀ e ∈ l₁, ∀ x, stepModel x e = x) →
      statesAfter m (l₁ ++ l₂) = List.replicate l₁.length m ++ statesAfter m l₂ := by
  induction l₁ with
  | nil => intro m _; rfl
  | cons e rest ih =>
    intro m h
    have he : stepModel m e = m := h e (List.mem_cons_self e rest) m
    simp only [List.cons_append, statesAfter, he, List.length_cons, List.replicate_succ,
      List.cons_append]
    exact congrArg _ (ih m (fun x hx y => h x (List.mem_cons_of_mem e hx) y))

theorem epochLoop_length (dir : String) (clock : ℕ → Wallclock) (m : Xception) :
    ∀ (L : List ℤ) (idx : ℕ), (epochLoop dir clock m idx L).length = 3 * L.length := by
  intro L
  induction L with
  | nil => intro idx; rfl
  | cons e rest ih =>
    intro idx
    simp [epochLoop, epochBody, ih, Nat.mul_succ]

theorem rises_true_replicate : ∀ j, rises (true :: List.replicate j true) = 0 := by
  intro j
  induction j with
  | zero => rfl
  | succ n ih => simp [List.replicate_succ, rises, ih]

theorem falls_true_replicate : ∀ j, falls (true :: List.replicate j true) = 0 := by
  intro j
  induction j with
  | zero => rfl
  | succ n ih => simp [List.replicate_succ, falls, ih]

theorem getD_nonneg (l : List ℝ) (n : ℕ) (h : ∀ x ∈ l, 0 ≤ x) : 0 ≤ l.getD n 0 := by
  rcases Nat.lt_or_ge n l.length with hn | hn
  · rw [List.getD_eq_getElem l 0 hn]
    exact h _ (List.getElem_mem hn)
  · rw [List.getD_eq_getElem?_getD, List.getElem?_eq_none hn]
    exact le_refl 0

theorem getD_le_lse (o : List ℝ) (t : ℕ) (ht : t < o.length) : o.getD t 0 ≤ lse o := by
  have hpos : 0 < (o.map Real.exp).sum := by
    apply List.sum_pos
    · intro x hx
      rcases List.mem_map.mp hx with ⟨y, _, rfl⟩
      exact Real.exp_pos y
    · have hne : o ≠ [] := by
        intro hcon
        rw [hcon] at ht
        simp at ht
      simpa using hne
  have hmem : Real.exp (o.getD t 0) ∈ o.map Real.exp := by
    rw [List.getD_eq_getElem o 0 ht]
    exact List.mem_map_of_mem Real.exp (List.getElem_mem ht)
  have hle : Real.exp (o.getD t 0) ≤ (o.map Real.exp).sum :=
    List.single_le_sum
      (fun x hx => by
        rcases List.mem_map.mp hx with ⟨y, _, rfl⟩
        exact (Real.exp_pos y).le)
      _ hmem
  calc o.getD t 0 = Real.log (Real.exp (o.getD t 0)) := (Real.log_exp _).symm
    _ ≤ Real.log ((o.map Real.exp).sum) := Real.log_le_log (Real.exp_pos _) hle
    _ = lse o := rfl

theorem ceLoss_nonneg (w o : List ℝ) (t : ℕ) (hw : ∀ x ∈ w, 0 ≤ x)
    (ht : t < o.length) : 0 ≤ ceLoss w o t :=
  mul_nonneg (getD_nonneg w t hw) (sub_nonneg.mpr (getD_le_lse o t ht))

theorem batchLossSum_nonneg (m : Xception) (w : List ℝ) (b : Batch)
    (hw : ∀ x ∈ w, 0 ≤ x) (ht : ∀ p ∈ b, p.2 < (m.forward p.1).length) :
    0 ≤ batchLossSum m w b := by
  apply List.sum_nonneg
  intro x hx
  rcases List.mem_map.mp hx with ⟨p, hp, rfl⟩
  exact ceLoss_nonneg w _ p.2 hw (ht p hp)

theorem batchCorrect_nonneg (m : Xception) (b : Batch) : 0 ≤ batchCorrect m b := by
  apply List.sum_nonneg
  intro x hx
  rcases List.mem_map.mp hx with ⟨p, _, rfl⟩
  split <;> norm_num

theorem batchCorrect_le (m : Xception) (b : Batch) : batchCorrect m b ≤ (b.length : ℝ) := by
  have h := List.sum_le_card_nsmul
    (b.map (fun p => if argmaxIdx (m.forward p.1) = p.2 then (1 : ℝ) else 0)) 1
    (by
      intro x hx
      rcases List.mem_map.mp hx with ⟨p, _, rfl⟩
      split <;> norm_num)
  rw [List.length_map] at h
  simpa [batchCorrect, nsmul_eq_mul] using h

theorem foldl_pair_sum (f g : Batch → ℝ) (bs : List Batch) :
    ∀ a c : ℝ, bs.foldl (fun acc b => (acc.1 + f b, acc.2 + g b)) (a, c)
      = (a + (bs.map f).sum, c + (bs.map g).sum) := by
  induction bs with
  | nil => intro a c; simp
  | cons b rest ih =>
    intro a c
    simp [List.foldl_cons, ih, add_assoc]

theorem evalPass_eq (m : Xception) (w : List ℝ) (bs : List Batch) :
    evalPass m w bs = ((bs.map (batchLossSum m w)).sum, (bs.map (batchCorrect m)).sum) := by
  have h := foldl_pair_sum (batchLossSum m w) (batchCorrect m) bs 0 0
  simpa [evalPass] using h

theorem shardSize_cast (bs : List Batch) :
    ((shardSize bs : ℕ) : ℝ) = (bs.map (fun b => ((b.length : ℕ) : ℝ))).sum := by
  rw [shardSize, Nat.cast_list_sum, List.map_map]
  rfl

theorem localStats_loss_nonneg (m : Xception) (w : List ℝ) (bs : List Batch)
    (hw : ∀ x ∈ w, 0 ≤ x)
    (ht : ∀ b ∈ bs, ∀ p ∈ b, p.2 < (m.forward p.1).length) :
    0 ≤ (localStats m w bs).1 := by
  rw [localStats, evalPass_eq]
  apply div_nonneg _ (Nat.cast_nonneg _)
  apply List.sum_nonneg
  intro x hx
  rcases List.mem_map.mp hx with ⟨b, hb, rfl⟩
  exact batchLossSum_nonneg m w b hw (ht b hb)

theorem localStats_acc_nonneg (m : Xception) (w : List ℝ) (bs : List Batch) :
    0 ≤ (localStats m w bs).2 := by
  rw [localStats, evalPass_eq]
  apply div_nonneg _ (Nat.cast_nonneg _)
  apply List.sum_nonneg
  intro x hx
  rcases List.mem_map.mp hx with ⟨b, _, rfl⟩
  exact batchCorrect_nonneg m b

theorem localStats_acc_le_one (m : Xception) (w : List ℝ) (bs : List Batch) :
    (localStats m w bs).2 ≤ 1 := by
  rw [localStats, evalPass_eq]
  apply div_le_one_of_le₀ _ (Nat.cast_nonneg _)
  rw [shardSize_cast]
  exact List.sum_le_sum (fun b _ => batchCorrect_le m b)

theorem metric_average_nonneg (vs : List ℝ) (nm : String) (h : ∀ v ∈ vs, 0 ≤ v) :
    0 ≤ metric_average vs nm :=
  div_nonneg (List.sum_nonneg h) (Nat.cast_nonneg _)

theorem metric_average_le_one (vs : List ℝ) (nm : String) (h : ∀ v ∈ vs, v ≤ 1) :
    metric_average vs nm ≤ 1 := by
  apply div_le_one_of_le₀ _ (Nat.cast_nonneg _)
  have hs := List.sum_le_card_nsmul vs 1 h
  simpa [nsmul_eq_mul] using hs

theorem fullyTrainable_loadScratch (nf nc : ℕ) (fwd : ℕ → List ℝ) (h : 0 < nf) :
    fullyTrainable (loadScratch nf nc fwd) = false := by
  cases nf with
  | zero => exact absurd h (lt_irrefl 0)
  | succ k => simp [fullyTrainable, loadScratch, List.replicate_succ]

theorem fullyTrainable_unfreeze_loadScratch (nf nc : ℕ) (fwd : ℕ → List ℝ) :
    fullyTrainable (unfreezeFeatures (loadScratch nf nc fwd)) = true := by
  simp [fullyTrainable, unfreezeFeatures, loadScratch, List.all_eq_true,
    List.mem_map, List.mem_replicate]

theorem statesAfter_program (dir : String) (clock : ℕ → Wallclock) (epochs : ℤ)
    (m0 : Xception) :
    statesAfter m0 (programTrace dir clock epochs m0)
      = List.replicate (3 * warmupEpochs.length) m0
          ++ m0 :: unfreezeFeatures m0
            :: List.replicate (3 * (finetuneEpochs epochs).length) (unfreezeFeatures m0) := by
  rw [programTrace, List.append_assoc]
  rw [statesAfter_noop_append _ _ m0 (stepModel_epochLoop dir clock m0 warmupEpochs 0)]
  rw [epochLoop_length]
  congr 1
  show statesAfter m0
      (Ev.unfreeze
        :: epochLoop dir clock (unfreezeFeatures m0) warmupEpochs.length (finetuneEpochs epochs))
    = m0 :: unfreezeFeatures m0
        :: List.replicate (3 * (finetuneEpochs epochs).length) (unfreezeFeatures m0)
  rw [statesAfter]
  congr 1
  show statesAfter (unfreezeFeatures m0)
      (epochLoop dir clock (unfreezeFeatures m0) warmupEpochs.length (finetuneEpochs epochs))
    = unfreezeFeatures m0
        :: List.replicate (3 * (finetuneEpochs epochs).length) (unfreezeFeatures m0)
  rw [statesAfter_const _ _
    (stepModel_epochLoop dir clock (unfreezeFeatures m0) (finetuneEpochs epochs)
      warmupEpochs.length)]
  rw [epochLoop_length]

/-! ## Claim theorems -/

/-- C1, counterexample: the claim says the warm-up loop runs zero iterations
and the set of epochs visited with `epochs = 2` is `{2}`.  In fact
`range(1, 2)` has one element, so the warm-up loop runs once, and epoch 1 is
visited by the concrete run — hence the visited set is not `{2}`. -/
theorem claim_C1_counterexample :
    warmupEpochs.length = 1
      ∧ (1 : ℤ) ∈ epochsVisited (programTrace "./outputs" clock0 2 (loadScratch 1 1 fwd0)) := by
  constructor
  · decide
  · rw [epochsVisited_program]
    decide

/-- C1, amended: with a 1-worker configuration, `epochs = 2` and warm-up
boundary `N_FINETUNE_EPOCHS = 2`, the warm-up loop runs exactly one iteration
(epoch 1, since `range(1, 2) = [1]`) and the full fine-tune loop runs epochs
2 through `epochs + 1` exclusive (just epoch 2), so the exact sequence of
epoch numbers visited by the whole program is `[1, 2]` — the set `{1, 2}`. -/
theorem claim_C1_visited_epochs (dir : String) (clock : ℕ → Wallclock) (m0 : Xception) :
    warmupEpochs = [1] ∧ finetuneEpochs 2 = [2]
      ∧ epochsVisited (programTrace dir clock 2 m0) = [1, 2] := by
  refine ⟨by decide, by decide, ?_⟩
  rw [epochsVisited_program]
  decide

/-- C2: every run of the evaluation loop accumulates the summed (not
averaged) loss and summed correct-prediction count over the local validation
shard, divides each accumulator by the local shard size, and hands exactly
those two per-worker scalars to the distributed-average primitive
independently (under the names `avg_loss` and `avg_accuracy`); the model
comes back unchanged — no parameter is updated during evaluation. -/
theorem claim_C2_eval_reduction (m : Xception) (w : List ℝ) (shards : List (List Batch)) :
    test m w shards
      = ((metric_average
            (shards.map fun sh => ((sh.map (batchLossSum m w)).sum) / (shardSize sh : ℝ))
            "avg_loss",
          metric_average
            (shards.map fun sh => ((sh.map (batchCorrect m)).sum) / (shardSize sh : ℝ))
            "avg_accuracy"),
         m) := by
  simp [test, localStats, evalPass_eq]

/-- C3: over any complete run — any epoch count, any clock, any output
directory, and independent of all evaluation outcomes — the trainability
state goes from frozen-feature to fully trainable exactly once (one rise in
the `fullyTrainable` trajectory), immediately after the warm-up epochs, and
the transition is never reversed (no falls). -/
theorem claim_C3_one_way_unfreeze (dir : String) (clock : ℕ → Wallclock) (epochs : ℤ)
    (nf nc : ℕ) (fwd : ℕ → List ℝ) (h : 0 < nf) :
    ((statesAfter (loadScratch nf nc fwd)
        (programTrace dir clock epochs (loadScratch nf nc fwd))).map fullyTrainable
      = List.replicate (3 * warmupEpochs.length + 1) false
          ++ List.replicate (3 * (finetuneEpochs epochs).length + 1) true)
    ∧ rises ((statesAfter (loadScratch nf nc fwd)
        (programTrace dir clock epochs (loadScratch nf nc fwd))).map fullyTrainable) = 1
    ∧ falls ((statesAfter (loadScratch nf nc fwd)
        (programTrace dir clock epochs (loadScratch nf nc fwd))).map fullyTrainable) = 0 := by
  have hshape : (statesAfter (loadScratch nf nc fwd)
      (programTrace dir clock epochs (loadScratch nf nc fwd))).map fullyTrainable
      = List.replicate (3 * warmupEpochs.length + 1) false
          ++ List.replicate (3 * (finetuneEpochs epochs).length + 1) true := by
    rw [statesAfter_program]
    rw [List.map_append, List.map_replicate, List.map_cons, List.map_cons,
      List.map_replicate]
    rw [fullyTrainable_loadScratch nf nc fwd h, fullyTrainable_unfreeze_loadScratch]
    have hwu : 3 * warmupEpochs.length = 3 := by decide
    rw [hwu]
    have h4 : List.replicate (3 + 1) false = [false, false, false, false] := rfl
    have h3 : List.replicate 3 false = [false, false, false] := rfl
    rw [h4, h3, List.replicate_succ]
    rfl
  refine ⟨hshape, ?_, ?_⟩
  · rw [hshape]
    have hwu : 3 * warmupEpochs.length + 1 = 4 := by decide
    have h4 : List.replicate 4 false = [false, false, false, false] := rfl
    rw [hwu, h4, List.replicate_succ]
    simp [rises, rises_true_replicate]
  · rw [hshape]
    have hwu : 3 * warmupEpochs.length + 1 = 4 := by decide
    have h4 : List.replicate 4 false = [false, false, false, false] := rfl
    rw [hwu, h4, List.replicate_succ]
    simp [falls, falls_true_replicate]

/-- Witness for C3 at a concrete configuration (one feature parameter, one
classifier parameter, two epochs). -/
theorem claim_C3_witness :
    ((statesAfter (loadScratch 1 1 fwd0)
        (programTrace "./outputs" clock0 2 (loadScratch 1 1 fwd0))).map fullyTrainable
      = List.replicate (3 * warmupEpochs.length + 1) false
          ++ List.replicate (3 * (finetuneEpochs 2).length + 1) true)
    ∧ rises ((statesAfter (loadScratch 1 1 fwd0)
        (programTrace "./outputs" clock0 2 (loadScratch 1 1 fwd0))).map fullyTrainable) = 1
    ∧ falls ((statesAfter (loadScratch 1 1 fwd0)
        (programTrace "./outputs" clock0 2 (loadScratch 1 1 fwd0))).map fullyTrainable) = 0 :=
  claim_C3_one_way_unfreeze "./outputs" clock0 2 1 1 fwd0 (by decide)

/-- C4: `metric_average` returns the arithmetic mean of the workers' scalars;
when every one of the `n > 0` workers supplies the same value `v`, the result
is `v` itself, whatever the grouping name. -/
theorem claim_C4_average_identity (nm : String) (n : ℕ) (v : ℝ) (h : 0 < n) :
    metric_average (List.replicate n v) nm = v := by
  show (List.replicate n v).sum / ((List.replicate n v).length : ℝ) = v
  rw [List.sum_replicate, List.length_replicate, nsmul_eq_mul]
  exact mul_div_cancel_left₀ v (Nat.cast_ne_zero.mpr h.ne')

/-- Witness for C4: three workers all reporting 5 receive 5 back. -/
theorem claim_C4_witness : metric_average (List.replicate 3 (5 : ℝ)) "avg_loss" = 5 :=
  claim_C4_average_identity "avg_loss" 3 5 (by norm_num)

/-- C5: after every epoch of both phases — however many there are, and
regardless of evaluation outcomes, which the saves do not depend on — the
full parameter mapping is serialized once, so the number of checkpoint writes
equals the number of visited epochs, every checkpoint path is
`<output-dir>/xception_train_<date>_<hour>-<minute>.pth` for some wall-clock
reading, and every write carries the full `state_dict` (features plus
classifier, before or after the unfreeze). -/
theorem claim_C5_checkpoint_per_epoch (dir : String) (clock : ℕ → Wallclock)
    (epochs : ℤ) (m0 : Xception) :
    (savesOf (programTrace dir clock epochs m0)).length = (visitedEpochs epochs).length
    ∧ ∀ s ∈ savesOf (programTrace dir clock epochs m0),
        (∃ wc : Wallclock,
            s.1 = osPathJoin dir
              ("xception_train" ++ "_"
                ++ (wc.date ++ "_" ++ toString wc.hour ++ "-" ++ toString wc.minute)
                ++ ".pth"))
        ∧ (s.2 = stateDict m0 ∨ s.2 = stateDict (unfreezeFeatures m0)) := by
  constructor
  · have hu : savesOf [Ev.unfreeze] = [] := rfl
    simp only [programTrace, savesOf_append, hu, List.length_append, List.length_nil,
      savesOf_epochLoop_length, visitedEpochs]
    omega
  · intro s hs
    simp only [programTrace, savesOf_append, List.mem_append] at hs
    rcases hs with (hs | hs) | hs
    · obtain ⟨⟨i, hp⟩, hd⟩ := savesOf_epochLoop_mem dir clock m0 warmupEpochs 0 s hs
      exact ⟨⟨clock i, hp⟩, Or.inl hd⟩
    · simp [savesOf] at hs
    · obtain ⟨⟨i, hp⟩, hd⟩ := savesOf_epochLoop_mem dir clock (unfreezeFeatures m0)
        (finetuneEpochs epochs) warmupEpochs.length s hs
      exact ⟨⟨clock i, hp⟩, Or.inr hd⟩

/-- C6: for any dataset (with targets inside the score-vector range, which
the loss layer requires) and any non-negative class-weight vector, the
accuracy reported by the evaluation loop lies in `[0, 1]` and the reported
loss is non-negative. -/
theorem claim_C6_metric_bounds (m : Xception) (w : List ℝ) (shards : List (List Batch))
    (hw : ∀ x ∈ w, 0 ≤ x)
    (ht : ∀ sh ∈ shards, ∀ b ∈ sh, ∀ p ∈ b, p.2 < (m.forward p.1).length) :
    0 ≤ ((test m w shards).1).1 ∧ 0 ≤ ((test m w shards).1).2
      ∧ ((test m w shards).1).2 ≤ 1 := by
  refine ⟨?_, ?_, ?_⟩
  · show 0 ≤ metric_average (shards.map fun sh => (localStats m w sh).1) "avg_loss"
    apply metric_average_nonneg
    intro v hv
    rcases List.mem_map.mp hv with ⟨sh, hsh, rfl⟩
    exact localStats_loss_nonneg m w sh hw (ht sh hsh)
  · show 0 ≤ metric_average (shards.map fun sh => (localStats m w sh).2) "avg_accuracy"
    apply metric_average_nonneg
    intro v hv
    rcases List.mem_map.mp hv with ⟨sh, _, rfl⟩
    exact localStats_acc_nonneg m w sh
  · show metric_average (shards.map fun sh => (localStats m w sh).2) "avg_accuracy" ≤ 1
    apply metric_average_le_one
    intro v hv
    rcases List.mem_map.mp hv with ⟨sh, _, rfl⟩
    exact localStats_acc_le_one m w sh

/-- Witness for C6: one worker, one single-example batch with target 1 on a
two-class toy network, unit class weights. -/
theorem claim_C6_witness :
    0 ≤ ((test toyModel toyWeights toyShards).1).1
      ∧ 0 ≤ ((test toyModel toyWeights toyShards).1).2
      ∧ ((test toyModel toyWeights toyShards).1).2 ≤ 1 :=
  claim_C6_metric_bounds toyModel toyWeights toyShards
    (by
      intro x hx
      simp only [toyWeights, List.mem_cons, List.not_mem_nil, or_false] at hx
      rcases hx with rfl | rfl <;> norm_num)
    (by
      intro sh hsh b hb p hp
      simp only [toyShards, List.mem_singleton] at hsh
      subst hsh
      simp only [List.mem_singleton] at hb
      subst hb
      simp only [List.mem_singleton] at hp
      subst hp
      simp [toyModel])

/-- C7: in every evaluation pass, every worker — whatever its rank — logs the
same two averaged metrics `val_loss` and `val_acc` to the experiment tracker,
and the human-readable summary is printed exactly on the coordinating worker,
rank zero. -/
theorem claim_C7_rank_zero_print (r : ℕ) (m : Xception) (w : List ℝ)
    (shards : List (List Batch)) :
    logEvents (testEffects r m w shards)
      = [RunEvent.log "val_loss" ((test m w shards).1).1,
         RunEvent.log "val_acc" ((test m w shards).1).2]
    ∧ (printsSummary (testEffects r m w shards) = true ↔ r = 0) := by
  constructor
  · by_cases hr : r = 0 <;> simp [testEffects, logEvents, hr]
  · by_cases hr : r = 0 <;> simp [testEffects, printsSummary, hr]

/-- C8, counterexample: the claim says every argument has a default and the
program proceeds with no arguments supplied.  Parsing with no arguments does
succeed, but `--data-folder` holds `None` (it has no declared default), so
the very next step — joining the data-folder path on line 60 — raises
`TypeError` instead of proceeding. -/
theorem claim_C8_counterexample :
    (parseArgs []).data_folder = none
      ∧ dataFolderPath (parseArgs []) = Except.error "TypeError" :=
  ⟨rfl, rfl⟩

/-- C8, amended: every flag is optional, so configuration itself succeeds
with no arguments, and every argument except `--data-folder` has a concrete
declared default (`./outputs`, 64, 1000, 10, 0.01, 0.5, CUDA on, 42, 10,
compression off); `--data-folder` defaults to `None`, so a run with no
arguments fails at the data-folder path join immediately after
configuration, while supplying `--data-folder` makes that step succeed. -/
theorem claim_C8_defaults :
    parseArgs [] = defaultArgs
    ∧ defaultArgs.output_dir = "./outputs" ∧ defaultArgs.batch_size = 64
    ∧ defaultArgs.test_batch_size = 1000 ∧ defaultArgs.epochs = 10
    ∧ defaultArgs.lr = 1/100 ∧ defaultArgs.momentum = 1/2
    ∧ defaultArgs.no_cuda = false ∧ defaultArgs.seed = 42
    ∧ defaultArgs.log_interval = 10 ∧ defaultArgs.fp16_allreduce = false
    ∧ defaultArgs.data_folder = none
    ∧ dataFolderPath defaultArgs = Except.error "TypeError"
    ∧ ∀ s, dataFolderPath (parseArgs [CliArg.data_folder s])
        = Except.ok (osPathJoin s "data_wf") :=
  ⟨rfl, rfl, rfl, rfl, rfl, rfl, rfl, rfl, rfl, rfl, rfl, rfl, rfl, fun s => rfl⟩

/-- C9: the learning rate handed to the SGD optimizer is the configured
`--lr` multiplied by the world size; with a single worker they coincide. -/
theorem claim_C9_lr_scaled (a : Args) (n : ℕ) :
    (buildSGD a n).lr = a.lr * (n : ℚ) ∧ (buildSGD a 1).lr = a.lr := by
  constructor
  · rfl
  · show a.lr * ((1 : ℕ) : ℚ) = a.lr
    simp

/-- C10: whatever the `--no-cuda` switch and CUDA availability — in
particular in a CPU-only run where `args.cuda` is false — the setup sequence
still contains the unguarded `.cuda()` move of the class-weight vector, and
it happens before the loss functions are constructed. -/
theorem claim_C10_unconditional_cuda (noCuda avail : Bool) :
    SetupStep.moveWeightsCuda ∈ setupTrace (cudaEnabled noCuda avail)
    ∧ (setupTrace (cudaEnabled noCuda avail)).indexOf SetupStep.moveWeightsCuda
        < (setupTrace (cudaEnabled noCuda avail)).indexOf SetupStep.buildCriterion := by
  cases noCuda <;> cases avail <;> exact ⟨by decide, by decide⟩
